import Mathlib

/-!
Verification development for the session-title resolution engine of the
goose desktop UI (`ui/desktop/src/hooks/useSessionTitle.ts`).

The hook is shallowly embedded as a transition system:
* pure helpers (`generateTitleFromMessage`, the localStorage-backed
  manual-edit ledger) are translated as Lean functions;
* the React hook itself is modelled as a state record (`Sys`) plus a
  deterministic `step` function over scheduler-chosen events.  Each
  run-to-completion segment of the JavaScript event loop (an effect run,
  a user call, the resumption of an `await` together with the promise
  continuations chained on it) is one atomic `step`.  Network calls are
  suspension points: issuing one appends a `PendingOp` recording the
  values captured by the closure, and a later completion event delivers
  its outcome.
-/

namespace SessionTitleSpec

/-! ## JavaScript string primitives used by the hook -/

/-- Whitespace for the purposes of `String.prototype.trim`. -/
def isJsWhitespace (c : Char) : Bool :=
  c = ' ' || c = '\t' || c = '\n' || c = '\r'

/-- `s.trim()`: strip whitespace from both ends. -/
def jsTrim (s : String) : String :=
  String.mk (((s.data.dropWhile isJsWhitespace).reverse.dropWhile isJsWhitespace).reverse)

/-- `s.split(sep)` for a single-character separator: JavaScript keeps the
empty segments produced by consecutive separators. -/
def splitChar (sep : Char) : List Char → List (List Char)
  | [] => [[]]
  | c :: cs =>
    if c = sep then [] :: splitChar sep cs
    else
      match splitChar sep cs with
      | [] => [[c]]
      | w :: ws => (c :: w) :: ws

/-! ## Title derivation (`generateTitleFromMessage`, lines 44-76) -/

/-- The `for (const word of words)` loop of `generateTitleFromMessage`
(lines 61-66): greedily append words while `(title + ' ' + word).length`
stays at most 50, stopping (`break`) at the first word that would exceed
it; `title = title ? title + ' ' + word : word`. -/
def packWords : List (List Char) → List Char → List Char
  | [], title => title
  | w :: ws, title =>
    if title.length + 1 + w.length > 50 then title
    else packWords ws (if title = [] then w else title ++ ' ' :: w)

/-- `generateTitleFromMessage` (lines 44-76), translated clause by clause:
empty or whitespace-only input gives `""`; a trimmed input of length at
most 50 is returned as is; otherwise the space-split words are greedily
packed, `"..."` is appended when the packed title is shorter than the
cleaned text, and if no word fitted the first 47 characters plus `"..."`
are used. -/
def generateTitleFromMessage (messageText : String) : String :=
  if messageText = "" ∨ jsTrim messageText = "" then ""
  else
    let cleanText := jsTrim messageText
    if cleanText.length ≤ 50 then cleanText
    else
      let title := packWords (splitChar ' ' cleanText.data) []
      if title = [] then String.mk (cleanText.data.take 47) ++ "..."
      else if title.length < cleanText.length then String.mk title ++ "..."
      else String.mk title

/-! ### The derivation algorithm as the specification words it

Spec §4.3: "trim `rawText`; if empty, return empty.  If trimmed length
≤ 50, return as-is.  Otherwise perform greedy word-packing: accumulate
whitespace-delimited words into the candidate while
`candidate + " " + nextWord` stays within 50 characters; stop at the
first word that would exceed it.  If at least one word fit, append
`"..."`.  If zero words fit, fall back to a hard character truncation:
first 47 characters + `"..."`." -/

/-- Whitespace-delimited words of a character list (runs of whitespace
separate words; no empty words), as the specification's "whitespace-
delimited words" reads. -/
def wsWordsGo : List Char → List Char → List (List Char)
  | acc, [] => if acc = [] then [] else [acc.reverse]
  | acc, c :: cs =>
    if isJsWhitespace c then
      if acc = [] then wsWordsGo [] cs else acc.reverse :: wsWordsGo [] cs
    else wsWordsGo (c :: acc) cs

/-- Modelled from the spec: `derive` of §4.3 with "whitespace-delimited
words", exactly as the specification words the algorithm. -/
def deriveSpec (rawText : String) : String :=
  let t := jsTrim rawText
  if t = "" then ""
  else if t.length ≤ 50 then t
  else
    let packed := packWords (wsWordsGo [] t.data) []
    if packed = [] then String.mk (t.data.take 47) ++ "..."
    else String.mk packed ++ "..."

/-- Modelled from the spec as amended: identical to `deriveSpec` except
that words are delimited by single space characters only (JavaScript
`split(' ')` semantics, consecutive spaces yielding empty segments that
are packed back, re-creating the original spacing). -/
def deriveAmended (rawText : String) : String :=
  let t := jsTrim rawText
  if t = "" then ""
  else if t.length ≤ 50 then t
  else
    let packed := packWords (splitChar ' ' t.data) []
    if packed = [] then String.mk (t.data.take 47) ++ "..."
    else String.mk packed ++ "..."

/-! ## The manual-edit ledger (lines 6-27)

`localStorage` is modelled as an association list of entries plus two
environment flags saying whether the underlying reads and writes throw.
The raw operations return `Except Unit _` (a `.error` is a thrown
exception); the ledger wrappers below translate the `try`/`catch`
blocks of the source. -/

structure Storage where
  entries : List (String × String)
  readFails : Bool
  writeFails : Bool
  deriving DecidableEq

/-- `localStorage.getItem` (may throw). -/
def localGetItem (st : Storage) (k : String) : Except Unit (Option String) :=
  if st.readFails then .error ()
  else .ok ((st.entries.find? (fun p => p.1 = k)).map (fun p => p.2))

/-- `localStorage.setItem` (may throw). -/
def localSetItem (st : Storage) (k v : String) : Except Unit Storage :=
  if st.writeFails then .error ()
  else .ok { st with entries := (k, v) :: st.entries.filter (fun p => ¬ p.1 = k) }

/-- `localStorage.removeItem` (may throw). -/
def localRemoveItem (st : Storage) (k : String) : Except Unit Storage :=
  if st.writeFails then .error ()
  else .ok { st with entries := st.entries.filter (fun p => ¬ p.1 = k) }

/-- Line 6: the namespaced ledger key for a session. -/
def getManualEditKey (sessionId : String) : String :=
  "goose_manual_edit_" ++ sessionId

/-- `isSessionManuallyEdited` (lines 8-15): read the flag, treating a
thrown read as `false`; the stored value counts only when it is the
string `"true"`. -/
def isSessionManuallyEdited (st : Storage) (sessionId : String) : Bool :=
  match localGetItem st (getManualEditKey sessionId) with
  | .error _ => false
  | .ok stored => stored = some "true"

/-- `setSessionManuallyEdited` (lines 17-27): write `"true"` or remove
the key; a thrown write is caught (logged) and leaves the storage
unchanged. -/
def setSessionManuallyEdited (st : Storage) (sessionId : String) (isManual : Bool) : Storage :=
  if isManual then
    match localSetItem st (getManualEditKey sessionId) "true" with
    | .error _ => st
    | .ok st1 => st1
  else
    match localRemoveItem st (getManualEditKey sessionId) with
    | .error _ => st
    | .ok st1 => st1

/-! ## Messages (`../types/message`), as far as the hook inspects them -/

/-- One element of a message's content array; `type` discriminates, and
`text` is the optional `.text` property read by the hook. -/
structure ContentItem where
  type : String
  text : Option String
  deriving DecidableEq

/-- A message's `content`: an array, a plain string, or anything else. -/
inductive MessageContent where
  | arr (items : List ContentItem)
  | str (s : String)
  | other
  deriving DecidableEq

structure Message where
  role : String
  content : MessageContent
  deriving DecidableEq

/-- Lines 324-333: extract the text of the first message — the `text` of
the first `type === 'text'` item of an array content (defaulting to
`''`), the string itself for a string content, `''` otherwise. -/
def extractText (m : Message) : String :=
  match m.content with
  | .arr items =>
    match items.find? (fun c => c.type = "text") with
    | some c => c.text.getD ""
    | none => ""
  | .str s => s
  | .other => ""

/-! ## The hook as a transition system -/

/-- The props the surrounding view passes to `useSessionTitle`. -/
structure Props where
  sessionId : String
  initialTitle : String
  messages : List Message
  deriving DecidableEq

/-- The `useState` cells of the hook (lines 83-89). -/
structure HookState where
  title : String
  isUpdating : Bool
  isAutoGenerating : Bool
  error : Option String
  hasExistingTitle : Bool
  isStabilized : Bool
  isManuallyEdited : Bool
  deriving DecidableEq

/-- The `useRef` cells (lines 92-94): the bound session id, whether an
initialization promise exists, and whether initialization finished. -/
structure Refs where
  currentSessionIdRef : Option String
  initPromiseRef : Bool
  initDoneRef : Bool
  deriving DecidableEq

/-- An outstanding asynchronous call, recording the values its closure
captured when it was issued.  `fetchOp` is a `getSessionHistory` call
from the initialization path; `persistOp` is an `updateSession` call
from `updateTitle`, with `fromAutoGen` recording whether the
auto-generation `.then`/`.finally` chain is attached to it. -/
inductive PendingOp where
  | fetchOp (capturedSid : String)
  | persistOp (capturedSid : String) (newTitle : String) (fromAutoGen : Bool)
  deriving DecidableEq

/-- The whole system: props, React state, refs, the localStorage ledger,
and the outstanding asynchronous calls (in order of issue). -/
structure Sys where
  props : Props
  hs : HookState
  refs : Refs
  storage : Storage
  pending : List PendingOp
  deriving DecidableEq

/-- Outcome of a `getSessionHistory` call:
`response.data?.metadata?.description` (absent or falsy `""` count as no
description), or a rejection. -/
inductive FetchOutcome where
  | success (desc : Option String)
  | failure
  deriving DecidableEq

/-- The value a rejected `updateSession` promise carries: an `Error`
object with its `message`, or any non-`Error` value. -/
inductive JsError where
  | errorObj (msg : String)
  | other
  deriving DecidableEq

/-- Outcome of an `updateSession` call. -/
inductive PersistOutcome where
  | success
  | failure (err : JsError)
  deriving DecidableEq

/-- Line 292-293: `err instanceof Error ? err.message : 'Failed to update
session title'`. -/
def errorMessage : JsError → String
  | .errorObj m => m
  | .other => "Failed to update session title"

/-- Scheduler events.  `bind`/`setMessages` change the props (a rebind of
the view, a message-list change); `runEffects` runs the hook's three
effects in declaration order, as React does after a commit;
`manualUpdate` is a user-initiated call of the returned `updateTitle`;
the two completion events deliver the outcome of the pending call at the
given issue-order index. -/
inductive Event where
  | bind (sessionId initialTitle : String) (messages : List Message)
  | setMessages (messages : List Message)
  | runEffects
  | manualUpdate (newTitle : String)
  | fetchComplete (i : Nat) (outcome : FetchOutcome)
  | persistComplete (i : Nat) (outcome : PersistOutcome)
  deriving DecidableEq

/-- The reset effect (lines 102-141): when the session id prop differs
from `currentSessionIdRef`, clear the initialization promise, reset all
state, load the manual-edit flag from the ledger, re-point the ref, and
apply a non-blank `initialTitle` immediately unless the session was
manually edited. -/
def resetEffect (s : Sys) : Sys :=
  if some s.props.sessionId = s.refs.currentSessionIdRef then s
  else
    let wasManuallyEdited := isSessionManuallyEdited s.storage s.props.sessionId
    let hs1 : HookState :=
      { title := "", isUpdating := false, isAutoGenerating := false, error := none,
        hasExistingTitle := false, isStabilized := false,
        isManuallyEdited := wasManuallyEdited }
    let refs1 : Refs :=
      { currentSessionIdRef := some s.props.sessionId, initPromiseRef := false,
        initDoneRef := false }
    if jsTrim s.props.initialTitle ≠ "" ∧ ¬ wasManuallyEdited then
      { s with
        hs := { hs1 with title := s.props.initialTitle, hasExistingTitle := true,
                         isStabilized := true },
        refs := { refs1 with initDoneRef := true } }
    else
      { s with hs := hs1, refs := refs1 }

/-- The initialization effect (lines 144-254) together with the
synchronous first part of the initialization routine (up to its only
suspension point, the `getSessionHistory` call).  Guard: skip when the
session id does not match the ref, when initialization already finished,
or when an initialization promise already exists.  The synchronous part: re-read
the ledger; a non-blank `initialTitle` of a not-manually-edited session
is applied (unless already stabilized) without any network call; for a
real session id a metadata fetch is issued (both the manually-edited
branch of line 177 and the plain branch of line 210 issue the same call
with the same completion handler); `'new'` or empty ids settle to the
empty title. -/
def initEffect (s : Sys) : Sys :=
  if ¬ (some s.props.sessionId = s.refs.currentSessionIdRef) ∨ s.refs.initDoneRef then s
  else if s.refs.initPromiseRef then s
  else
    let s := { s with refs := { s.refs with initPromiseRef := true } }
    let wasManuallyEdited := isSessionManuallyEdited s.storage s.props.sessionId
    if jsTrim s.props.initialTitle ≠ "" ∧ ¬ wasManuallyEdited then
      if ¬ s.hs.isStabilized then
        { s with
          hs := { s.hs with title := s.props.initialTitle, hasExistingTitle := true,
                            isStabilized := true },
          refs := { s.refs with initDoneRef := true } }
      else s
    else if s.props.sessionId ≠ "" ∧ s.props.sessionId ≠ "new" then
      { s with pending := s.pending ++ [.fetchOp s.props.sessionId] }
    else
      { s with
        hs := { s.hs with title := "", hasExistingTitle := false },
        refs := { s.refs with initDoneRef := true } }

/-- The guard of the auto-generation effect (lines 309-342), including
the non-blank checks on the extracted message text and the generated
title. -/
def autoGenReady (s : Sys) : Bool :=
  s.refs.initDoneRef &&
  some s.props.sessionId = s.refs.currentSessionIdRef &&
  !s.hs.hasExistingTitle &&
  s.hs.title = "" &&
  !s.hs.isStabilized &&
  !s.hs.isManuallyEdited &&
  !s.hs.isAutoGenerating &&
  s.props.messages.length = 1 &&
  (s.props.messages.head?.map Message.role) = some "user" &&
  jsTrim (((s.props.messages.head?.map extractText).getD "")) ≠ "" &&
  generateTitleFromMessage (((s.props.messages.head?.map extractText).getD "")) ≠ ""

/-- The auto-generation effect (lines 307-377).  When ready it sets
`isAutoGenerating` and calls `updateTitle(generatedTitle)`:
* if an update is already in flight `updateTitle` returns at once
  (line 261-264) and the `.then`/`.finally` chain (lines 349-367) runs
  immediately — stabilizing the state, clearing `isManuallyEdited`, and
  removing the ledger key — without any network call;
* otherwise `updateTitle` sets `isUpdating`, clears `error`, and issues
  the `updateSession` call, whose completion carries the chain. -/
def autoGenEffect (s : Sys) : Sys :=
  if autoGenReady s then
    let generated := generateTitleFromMessage ((s.props.messages.head?.map extractText).getD "")
    let s := { s with hs := { s.hs with isAutoGenerating := true } }
    if s.hs.isUpdating then
      { s with
        hs := { s.hs with hasExistingTitle := true, isStabilized := true,
                          isManuallyEdited := false, isAutoGenerating := false },
        storage := setSessionManuallyEdited s.storage s.props.sessionId false }
    else
      { s with
        hs := { s.hs with isUpdating := true, error := none },
        pending := s.pending ++ [.persistOp s.props.sessionId generated true] }
  else s

/-- One React commit's effect run: the three effects in declaration
order (reset, initialization, auto-generation). -/
def effects (s : Sys) : Sys :=
  autoGenEffect (initEffect (resetEffect s))

/-- A user call of `updateTitle(newTitle)` (lines 256-304) up to its
suspension point: rejected outright while `isUpdating` (lines 261-264);
otherwise set `isUpdating`, clear `error`, and issue the `updateSession`
call, capturing the current session id prop. -/
def manualUpdateStep (s : Sys) (newTitle : String) : Sys :=
  if s.hs.isUpdating then s
  else
    { s with
      hs := { s.hs with isUpdating := true, error := none },
      pending := s.pending ++ [.persistOp s.props.sessionId newTitle false] }

/-- Resumption of the initialization routine after its `getSessionHistory` call
(lines 182-247): a result for a session id that is no longer current is
discarded (lines 187-190, 217-220); otherwise a non-blank description is
applied and stabilizes the state, an absent one settles to the empty
title; both mark initialization done.  A rejection (lines 240-247)
settles to the empty title when still current. -/
def applyFetch (s : Sys) (capturedSid : String) (outcome : FetchOutcome) : Sys :=
  match outcome with
  | .success desc =>
    if some capturedSid = s.refs.currentSessionIdRef then
      if (desc.getD "") ≠ "" then
        { s with
          hs := { s.hs with title := desc.getD "", hasExistingTitle := true,
                            isStabilized := true },
          refs := { s.refs with initDoneRef := true } }
      else
        { s with
          hs := { s.hs with title := "", hasExistingTitle := false },
          refs := { s.refs with initDoneRef := true } }
    else s
  | .failure =>
    if some capturedSid = s.refs.currentSessionIdRef then
      { s with
        hs := { s.hs with title := "", hasExistingTitle := false },
        refs := { s.refs with initDoneRef := true } }
    else s

/-- The success branch of `updateTitle` (lines 277-288): when the
captured session id is still current, apply the new title, stabilize,
mark the session manually edited, and persist the ledger flag. -/
def applyPersistSuccess (s : Sys) (capturedSid newTitle : String) : Sys :=
  if some capturedSid = s.refs.currentSessionIdRef then
    { s with
      hs := { s.hs with title := newTitle, hasExistingTitle := true,
                        isStabilized := true, isManuallyEdited := true },
      storage := setSessionManuallyEdited s.storage capturedSid true }
  else s

/-- The `finally` block of `updateTitle` (lines 297-301). -/
def applyPersistFinally (s : Sys) (capturedSid : String) : Sys :=
  if some capturedSid = s.refs.currentSessionIdRef then
    { s with hs := { s.hs with isUpdating := false } }
  else s

/-- The failure branch of `updateTitle` (lines 289-296): set `error`
when still current (the rejection is re-thrown to the caller, which
changes no hook state). -/
def applyPersistFailure (s : Sys) (capturedSid : String) (err : JsError) : Sys :=
  if some capturedSid = s.refs.currentSessionIdRef then
    { s with hs := { s.hs with error := some (errorMessage err) } }
  else s

/-- The `.then` handler of the auto-generation chain (lines 349-359):
when the captured session id is still current, stabilize and reset
`isManuallyEdited` and the ledger entry to false. -/
def applyAutoGenThen (s : Sys) (capturedSid : String) : Sys :=
  if some capturedSid = s.refs.currentSessionIdRef then
    { s with
      hs := { s.hs with hasExistingTitle := true, isStabilized := true,
                        isManuallyEdited := false },
      storage := setSessionManuallyEdited s.storage capturedSid false }
  else s

/-- The `.finally` handler of the auto-generation chain (lines 363-367). -/
def applyAutoGenFinally (s : Sys) (capturedSid : String) : Sys :=
  if some capturedSid = s.refs.currentSessionIdRef then
    { s with hs := { s.hs with isAutoGenerating := false } }
  else s

/-- Resumption after an `updateSession` call: the rest of `updateTitle`
(success or failure branch, then `finally`), followed — for an
auto-generation-initiated call — by the `.then`/`.catch`/`.finally`
chain.  All of this is one run-to-completion segment of the event loop:
the chained handlers are microtasks that run before any other event. -/
def applyPersist (s : Sys) (capturedSid newTitle : String) (fromAutoGen : Bool)
    (outcome : PersistOutcome) : Sys :=
  match outcome with
  | .success =>
    let s := applyPersistFinally (applyPersistSuccess s capturedSid newTitle) capturedSid
    if fromAutoGen then applyAutoGenFinally (applyAutoGenThen s capturedSid) capturedSid
    else s
  | .failure err =>
    let s := applyPersistFinally (applyPersistFailure s capturedSid err) capturedSid
    if fromAutoGen then applyAutoGenFinally s capturedSid
    else s

/-- The transition function.  A completion event whose index does not
name a pending call of the right kind is a no-op; otherwise the call is
removed from the outstanding list (its promise has settled) and its
continuation runs. -/
def step (s : Sys) : Event → Sys
  | .bind sessionId initialTitle messages =>
    { s with props := { sessionId := sessionId, initialTitle := initialTitle,
                        messages := messages } }
  | .setMessages messages =>
    { s with props := { s.props with messages := messages } }
  | .runEffects => effects s
  | .manualUpdate newTitle => manualUpdateStep s newTitle
  | .fetchComplete i outcome =>
    match s.pending[i]? with
    | some (.fetchOp capturedSid) =>
      applyFetch { s with pending := s.pending.eraseIdx i } capturedSid outcome
    | _ => s
  | .persistComplete i outcome =>
    match s.pending[i]? with
    | some (.persistOp capturedSid newTitle fromAutoGen) =>
      applyPersist { s with pending := s.pending.eraseIdx i } capturedSid newTitle
        fromAutoGen outcome
    | _ => s

/-- Run a sequence of events. -/
def exec (s : Sys) : List Event → Sys
  | [] => s
  | e :: es => exec (step s e) es

/-- The state of a freshly mounted hook instance before any effect has
run, over a given initial localStorage: all `useState` cells at their
initial values, all refs unset; the props are filled in by the first
`bind`. -/
def initSys (st : Storage) : Sys :=
  { props := { sessionId := "", initialTitle := "", messages := [] },
    hs := { title := "", isUpdating := false, isAutoGenerating := false, error := none,
            hasExistingTitle := false, isStabilized := false, isManuallyEdited := false },
    refs := { currentSessionIdRef := none, initPromiseRef := false, initDoneRef := false },
    storage := st,
    pending := [] }

/-- An ordinary, non-failing, initially empty localStorage. -/
def st0 : Storage := { entries := [], readFails := false, writeFails := false }

/-- The session id a pending call captured when it was issued. -/
def capturedOf : PendingOp → String
  | .fetchOp sid => sid
  | .persistOp sid _ _ => sid

/-- Whether a pending call is an `updateSession` call whose captured
session id matches the given bound id. -/
def isCurPersist (cur : Option String) : PendingOp → Bool
  | .persistOp sid _ _ => some sid = cur
  | .fetchOp _ => false

/-- The number of outstanding `updateSession` calls captured with the
currently bound session id. -/
def persistCountCur (s : Sys) : Nat :=
  (s.pending.filter (isCurPersist s.refs.currentSessionIdRef)).length

/-- Well-formed reachability: states reachable from a freshly mounted
hook by scheduler events, indexed by the session ids used so far.  The
side conditions record the scheduling discipline of the surrounding
application: every rebind uses a session id not bound before (the
`A -> B -> A` pattern is treated separately, see the C2 and C3
counterexamples), and a user save happens only once the reset effect has
bound the displayed session (React commits effects before the user can
interact with the committed view). -/
inductive ReachWF : List String → Sys → Prop where
  | init (st : Storage) : ReachWF [""] (initSys st)
  | bind {used : List String} {s : Sys} (sid t : String) (ms : List Message)
      (hfresh : sid ∉ used) (h : ReachWF used s) :
      ReachWF (sid :: used) (step s (.bind sid t ms))
  | setMessages {used : List String} {s : Sys} (ms : List Message)
      (h : ReachWF used s) : ReachWF used (step s (.setMessages ms))
  | runEffects {used : List String} {s : Sys} (h : ReachWF used s) :
      ReachWF used (step s .runEffects)
  | manualUpdate {used : List String} {s : Sys} (t : String)
      (hcur : some s.props.sessionId = s.refs.currentSessionIdRef)
      (h : ReachWF used s) : ReachWF used (step s (.manualUpdate t))
  | fetchComplete {used : List String} {s : Sys} (i : Nat) (o : FetchOutcome)
      (h : ReachWF used s) : ReachWF used (step s (.fetchComplete i o))
  | persistComplete {used : List String} {s : Sys} (i : Nat) (o : PersistOutcome)
      (h : ReachWF used s) : ReachWF used (step s (.persistComplete i o))

/-- The single-flight invariant, strengthened for the induction: the
session id prop and every captured id were bound at some point, the
number of outstanding persistence calls for the bound session is one
exactly while `isUpdating`, and a not-yet-rebound session id prop has no
outstanding persistence calls. -/
def Jinv (used : List String) (s : Sys) : Prop :=
  s.props.sessionId ∈ used ∧
  (∀ op ∈ s.pending, capturedOf op ∈ used) ∧
  persistCountCur s = (if s.hs.isUpdating then 1 else 0) ∧
  (some s.props.sessionId ≠ s.refs.currentSessionIdRef →
    (s.pending.filter (isCurPersist (some s.props.sessionId))).length = 0)

/-- How often the auto-generation transition fires along a run: a
`runEffects` event fires it when, after the reset and initialization
effects of the same commit, the guard of the auto-generation effect
holds. -/
def fireCount (s : Sys) : List Event → Nat
  | [] => 0
  | e :: es =>
    (match e with
     | .runEffects => if autoGenReady (initEffect (resetEffect s)) then 1 else 0
     | _ => 0) + fireCount (step s e) es

/-! ### Concrete runs used by the per-claim counterexamples -/

/-- A single user message whose content is the plain string `"hi"`. -/
def msgU : Message := { role := "user", content := .str "hi" }

/-- C1 run, first part: a session is bound with no provided title, the
initialization fetch is issued, and while it is outstanding the user
saves `"My Title"`, whose persistence succeeds. -/
def c1Prefix : List Event :=
  [.bind "s1" "" [], .runEffects, .manualUpdate "My Title", .persistComplete 1 .success]

/-- C1 run: afterwards the initialization fetch — issued before the
manual save — completes with the stale remote description. -/
def c1Trace : List Event := c1Prefix ++ [.fetchComplete 0 (.success (some "Old Remote"))]

/-- C2 run, first part: session `"A"` is bound with no provided title
(issuing a metadata fetch), the view rebinds to `"B"` and then back to
`"A"` with a provided title, leaving the first instance's fetch as the
only outstanding call. -/
def c2Prefix : List Event :=
  [.bind "A" "" [], .runEffects, .bind "B" "tB" [], .runEffects,
   .bind "A" "tA" [], .runEffects]

/-- C3 run, first part: an auto-generation persistence call for session
`"A"` is issued; the view rebinds away to `"B"` and back to `"A"`, and
on the new `"A"` instance a manual save of `"Real"` succeeds while the
old auto-generation call is still outstanding. -/
def c3Prefix : List Event :=
  [.bind "A" "" [], .runEffects, .fetchComplete 0 (.success none),
   .setMessages [msgU], .runEffects,
   .bind "B" "tB" [], .runEffects,
   .bind "A" "" [], .runEffects, .fetchComplete 1 (.success none),
   .manualUpdate "Real", .persistComplete 1 .success]

/-- C3 run: afterwards the old auto-generation persistence call
completes successfully and its `.then` handler runs. -/
def c3Trace : List Event := c3Prefix ++ [.persistComplete 0 .success]

/-- C4 run: a fresh session with one user message auto-generates; the
persistence call fails; the next effect run finds every guard
re-satisfied and auto-generates again. -/
def c4Trace : List Event :=
  [.bind "s" "" [], .runEffects, .fetchComplete 0 (.success none),
   .setMessages [msgU], .runEffects,
   .persistComplete 0 (.failure (.errorObj "boom")), .runEffects]

/-- C6 run: a manual save whose `updateSession` call rejects with an
`Error` whose `message` is the empty string. -/
def c6Trace : List Event :=
  [.bind "s" "t" [], .runEffects, .manualUpdate "x",
   .persistComplete 0 (.failure (.errorObj ""))]

/-- A state with an update in flight (used to witness the single-flight
rejection). -/
def sBusy : Sys :=
  { initSys st0 with
    hs := { (initSys st0).hs with isUpdating := true },
    refs := { currentSessionIdRef := some "", initPromiseRef := true, initDoneRef := true },
    pending := [.persistOp "" "x" false] }

/-- A state with a stale outstanding fetch: the call captured `"X"` but
the hook is now bound to `"Y"` (used to witness stale-result
discarding). -/
def sStale : Sys :=
  { initSys st0 with
    refs := { currentSessionIdRef := some "Y", initPromiseRef := true, initDoneRef := true },
    pending := [.fetchOp "X"] }

/-- A state with an auto-generation persistence call outstanding for the
currently bound session (used to witness the transient manual mark of
the auto-generation completion). -/
def sAuto : Sys :=
  { initSys st0 with
    props := { sessionId := "A", initialTitle := "", messages := [msgU] },
    hs := { (initSys st0).hs with isUpdating := true, isAutoGenerating := true },
    refs := { currentSessionIdRef := some "A", initPromiseRef := true, initDoneRef := true },
    pending := [.persistOp "A" "hi" true] }

/-- A state with a manual persistence call outstanding for the currently
bound session (used to witness the failed-save contract). -/
def sManual : Sys :=
  { initSys st0 with
    props := { sessionId := "A", initialTitle := "", messages := [] },
    hs := { (initSys st0).hs with title := "Old", isUpdating := true },
    refs := { currentSessionIdRef := some "A", initPromiseRef := true, initDoneRef := true },
    pending := [.persistOp "A" "New" false] }

/-- The C7 counterexample input: two 25-character words separated by a
tab, 51 characters in all. -/
def xC7 : String := String.mk (List.replicate 25 'a' ++ '\t' :: List.replicate 25 'b')

end SessionTitleSpec

namespace SessionTitleSpec

/-! ## Helper lemmas -/

/-- The greedy packing loop never builds a title longer than 50 characters. -/
lemma packWords_length_le (ws : List (List Char)) (acc : List Char) (h : acc.length ≤ 50) :
    (packWords ws acc).length ≤ 50 := by
  induction ws generalizing acc with
  | nil => simpa [packWords] using h
  | cons w ws ih =>
    simp only [packWords]
    split
    · exact h
    · rename_i hle
      apply ih
      split
      · omega
      · simp only [List.length_append, List.length_cons]
        omega

/-- Removing the element at an index decrements a filter count exactly when the removed element satisfies the predicate. -/
lemma length_filter_eraseIdx {α : Type} (p : α → Bool) :
    ∀ (l : List α) (i : Nat) (op : α), l[i]? = some op →
      ((l.eraseIdx i).filter p).length
        = (l.filter p).length - (if p op then 1 else 0) := by
  intro l
  induction l with
  | nil => intro i op h; simp at h
  | cons x xs ih =>
    intro i op h
    cases i with
    | zero =>
      simp only [List.getElem?_cons_zero, Option.some.injEq] at h
      subst h
      by_cases hp : p x <;> simp [List.eraseIdx, List.filter_cons, hp]
    | succ i =>
      simp only [List.getElem?_cons_succ] at h
      have hrec := ih i op h
      have hle : (if p op then 1 else 0) ≤ (xs.filter p).length := by
        by_cases hp : p op
        · simp only [hp, if_true]
          exact List.length_pos_of_mem (List.mem_filter.mpr ⟨List.getElem?_mem h, hp⟩)
        · simp [hp]
      by_cases hpx : p x <;> simp [List.eraseIdx, List.filter_cons, hpx, hrec] <;> omega

/-- A constantly false search finds nothing. -/
lemma find?_const_false {α : Type} (l : List α) :
    l.find? (fun a => false) = none := by
  induction l with
  | nil => rfl
  | cons x xs ih => simp [List.find?_cons, ih]

/-- After filtering a key out of an association list, looking the key up finds nothing. -/
lemma find?_filter_ne_none (l : List (String × String)) (k : String) :
    (l.filter (fun p => ¬ p.1 = k)).find? (fun p => p.1 = k) = none := by
  apply List.find?_eq_none.mpr
  intro x hx
  have hmem := List.mem_filter.mp hx
  simpa using hmem.2

/-- The reset effect is a no-op while the session id prop matches the bound ref. -/
lemma resetEffect_agree {s : Sys}
    (h : some s.props.sessionId = s.refs.currentSessionIdRef) : resetEffect s = s := by
  simp [resetEffect, h]

/-- The initialization effect never un-stabilizes a stabilized state. -/
lemma initEffect_stab {s : Sys} (h : s.hs.isStabilized = true) :
    (initEffect s).hs.isStabilized = true := by
  unfold initEffect
  dsimp only
  split_ifs <;> simp_all

/-- The auto-generation guard fails on a stabilized state. -/
lemma autoGenReady_stab {s : Sys} (h : s.hs.isStabilized = true) :
    autoGenReady s = false := by
  simp [autoGenReady, h]

/-- The auto-generation guard includes the session-currency check. -/
lemma autoGenReady_agree {s : Sys} (h : autoGenReady s = true) :
    some s.props.sessionId = s.refs.currentSessionIdRef := by
  simp only [autoGenReady, Bool.and_eq_true, decide_eq_true_eq] at h
  exact h.1.1.1.1.1.1.1.1.1.2

/-- Filter count over a one-element append. -/
lemma filter_append_single (p : PendingOp → Bool) (l : List PendingOp) (x : PendingOp) :
    ((l ++ [x]).filter p).length = (l.filter p).length + (if p x then 1 else 0) := by
  by_cases hp : p x <;> simp [List.filter_append, List.filter_cons, hp]

/-- The single-flight invariant transfers along a step that preserves props, bound id, the updating flag and the pending list. -/
lemma jinv_of_shape {used : List String} {s r : Sys} (h : Jinv used s)
    (hp : r.props = s.props) (hc : r.refs.currentSessionIdRef = s.refs.currentSessionIdRef)
    (hu : r.hs.isUpdating = s.hs.isUpdating) (hpend : r.pending = s.pending) :
    Jinv used r := by
  obtain ⟨h1, h2, h3, h4⟩ := h
  refine ⟨?_, ?_, ?_, ?_⟩
  · rw [hp]; exact h1
  · rw [hpend]; exact h2
  · show (r.pending.filter (isCurPersist r.refs.currentSessionIdRef)).length = _
    rw [hpend, hc, hu]; exact h3
  · rw [hp, hc, hpend]; exact h4

/-- The reset effect preserves the single-flight invariant. -/
lemma jinv_reset {used : List String} {s : Sys} (h : Jinv used s) :
    Jinv used (resetEffect s) := by
  obtain ⟨h1, h2, h3, h4⟩ := h
  unfold resetEffect
  split
  · exact ⟨h1, h2, h3, h4⟩
  · rename_i hne
    have hcount := h4 hne
    dsimp only
    split <;>
      exact ⟨h1, h2, by simpa [persistCountCur] using hcount,
        fun hcontra => absurd rfl hcontra⟩

/-- The initialization effect preserves the single-flight invariant. -/
lemma jinv_init {used : List String} {s : Sys} (h : Jinv used s) :
    Jinv used (initEffect s) := by
  obtain ⟨h1, h2, h3, h4⟩ := h
  unfold initEffect
  split
  · exact ⟨h1, h2, h3, h4⟩
  · rename_i hguard
    have hagree : some s.props.sessionId = s.refs.currentSessionIdRef := by
      by_contra hne
      exact hguard (Or.inl hne)
    split
    · exact ⟨h1, h2, h3, h4⟩
    · dsimp only
      split
      · split
        · exact ⟨h1, h2, h3, fun hcontra => absurd hagree hcontra⟩
        · exact ⟨h1, h2, h3, fun hcontra => absurd hagree hcontra⟩
      · split
        · refine ⟨h1, ?_, ?_, fun hcontra => absurd hagree hcontra⟩
          · intro op hop
            rcases List.mem_append.mp hop with hmem | hmem
            · exact h2 op hmem
            · simp only [List.mem_singleton] at hmem
              subst hmem
              exact h1
          · show ((s.pending ++ [PendingOp.fetchOp s.props.sessionId]).filter
                (isCurPersist s.refs.currentSessionIdRef)).length = _
            rw [filter_append_single]
            simpa [isCurPersist, persistCountCur] using h3
        · exact ⟨h1, h2, h3, fun hcontra => absurd hagree hcontra⟩

/-- The auto-generation effect preserves the single-flight invariant. -/
lemma jinv_autoGen {used : List String} {s : Sys} (h : Jinv used s) :
    Jinv used (autoGenEffect s) := by
  obtain ⟨h1, h2, h3, h4⟩ := h
  unfold autoGenEffect
  split
  · rename_i hready
    have hagree := autoGenReady_agree hready
    dsimp only
    split
    · exact ⟨h1, h2, h3, fun hcontra => absurd hagree hcontra⟩
    · rename_i hupd
      have hupd0 : s.hs.isUpdating = false := by
        simpa using hupd
      refine ⟨h1, ?_, ?_, fun hcontra => absurd hagree hcontra⟩
      · intro op hop
        rcases List.mem_append.mp hop with hmem | hmem
        · exact h2 op hmem
        · simp only [List.mem_singleton] at hmem
          subst hmem
          exact h1
      · have h3a : (s.pending.filter (isCurPersist s.refs.currentSessionIdRef)).length = 0 := by
          simpa [persistCountCur, hupd0] using h3
        show ((s.pending ++ [_]).filter (isCurPersist s.refs.currentSessionIdRef)).length = _
        rw [filter_append_single, h3a]
        simp [isCurPersist, hagree]
  · exact ⟨h1, h2, h3, h4⟩

/-- A user save issued on the bound session preserves the single-flight invariant. -/
lemma jinv_manual {used : List String} {s : Sys} (t : String)
    (hcur : some s.props.sessionId = s.refs.currentSessionIdRef)
    (h : Jinv used s) : Jinv used (manualUpdateStep s t) := by
  obtain ⟨h1, h2, h3, h4⟩ := h
  unfold manualUpdateStep
  split
  · exact ⟨h1, h2, h3, h4⟩
  · rename_i hupd
    have hupd0 : s.hs.isUpdating = false := by
      simpa using hupd
    refine ⟨h1, ?_, ?_, fun hcontra => absurd hcur hcontra⟩
    · intro op hop
      rcases List.mem_append.mp hop with hmem | hmem
      · exact h2 op hmem
      · simp only [List.mem_singleton] at hmem
        subst hmem
        exact h1
    · have h3a : (s.pending.filter (isCurPersist s.refs.currentSessionIdRef)).length = 0 := by
        simpa [persistCountCur, hupd0] using h3
      show ((s.pending ++ [_]).filter (isCurPersist s.refs.currentSessionIdRef)).length = _
      rw [filter_append_single, h3a]
      simp [isCurPersist, hcur]

/-- A fetch completion never touches the props, the bound id, the updating flag or the pending list it is handed. -/
lemma applyFetch_shape (s : Sys) (sid : String) (o : FetchOutcome) :
    (applyFetch s sid o).props = s.props ∧
    (applyFetch s sid o).refs.currentSessionIdRef = s.refs.currentSessionIdRef ∧
    (applyFetch s sid o).hs.isUpdating = s.hs.isUpdating ∧
    (applyFetch s sid o).pending = s.pending := by
  unfold applyFetch
  cases o <;> dsimp only <;> split_ifs <;> exact ⟨rfl, rfl, rfl, rfl⟩

/-- A persistence completion never touches the props, the bound id or the pending list it is handed. -/
lemma applyPersist_shape (s : Sys) (sid t : String) (a : Bool) (o : PersistOutcome) :
    (applyPersist s sid t a o).props = s.props ∧
    (applyPersist s sid t a o).refs.currentSessionIdRef = s.refs.currentSessionIdRef ∧
    (applyPersist s sid t a o).pending = s.pending := by
  unfold applyPersist applyPersistSuccess applyPersistFinally applyPersistFailure
    applyAutoGenThen applyAutoGenFinally
  cases o <;> cases a <;> dsimp only <;> split_ifs <;> exact ⟨rfl, rfl, rfl⟩

/-- A persistence completion for a no-longer-bound session id is a no-op. -/
lemma applyPersist_stale (s : Sys) (sid t : String) (a : Bool) (o : PersistOutcome)
    (h : ¬ some sid = s.refs.currentSessionIdRef) :
    applyPersist s sid t a o = s := by
  unfold applyPersist applyPersistSuccess applyPersistFinally applyPersistFailure
    applyAutoGenThen applyAutoGenFinally
  cases o <;> cases a <;> simp [h]

/-- A persistence completion for the bound session always ends with `isUpdating` false. -/
lemma applyPersist_cur_updating (s : Sys) (sid t : String) (a : Bool) (o : PersistOutcome)
    (h : some sid = s.refs.currentSessionIdRef) :
    (applyPersist s sid t a o).hs.isUpdating = false := by
  unfold applyPersist applyPersistSuccess applyPersistFinally applyPersistFailure
    applyAutoGenThen applyAutoGenFinally
  cases o <;> cases a <;> simp [h]

/-- Fetch completions preserve the single-flight invariant. -/
lemma jinv_fetchC {used : List String} {s : Sys} (i : Nat) (o : FetchOutcome)
    (h : Jinv used s) : Jinv used (step s (.fetchComplete i o)) := by
  obtain ⟨h1, h2, h3, h4⟩ := h
  rcases hp : s.pending[i]? with _ | op
  · simp only [step, hp]
    exact ⟨h1, h2, h3, h4⟩
  · cases op with
    | persistOp sid t a =>
      simp only [step, hp]
      exact ⟨h1, h2, h3, h4⟩
    | fetchOp sid =>
      simp only [step, hp]
      have herase := length_filter_eraseIdx
        (isCurPersist s.refs.currentSessionIdRef) s.pending i _ hp
      have herase2 := length_filter_eraseIdx
        (isCurPersist (some s.props.sessionId)) s.pending i _ hp
      have hsub : ∀ op ∈ s.pending.eraseIdx i, capturedOf op ∈ used :=
        fun op hop => h2 op ((List.eraseIdx_sublist s.pending i).subset hop)
      have hinv : Jinv used { s with pending := s.pending.eraseIdx i } := by
        refine ⟨h1, hsub, ?_, ?_⟩
        · show ((s.pending.eraseIdx i).filter
              (isCurPersist s.refs.currentSessionIdRef)).length = _
          rw [herase]
          simpa [isCurPersist, persistCountCur] using h3
        · intro hne
          show ((s.pending.eraseIdx i).filter
              (isCurPersist (some s.props.sessionId))).length = 0
          rw [herase2]
          have := h4 hne
          simp [isCurPersist, this]
      obtain ⟨hq1, hq2, hq3, hq4⟩ :=
        applyFetch_shape { s with pending := s.pending.eraseIdx i } sid o
      exact jinv_of_shape hinv hq1 hq2 hq3 hq4

/-- Persistence completions preserve the single-flight invariant. -/
lemma jinv_persistC {used : List String} {s : Sys} (i : Nat) (o : PersistOutcome)
    (h : Jinv used s) : Jinv used (step s (.persistComplete i o)) := by
  obtain ⟨h1, h2, h3, h4⟩ := h
  rcases hp : s.pending[i]? with _ | op
  · simp only [step, hp]
    exact ⟨h1, h2, h3, h4⟩
  · cases op with
    | fetchOp sid =>
      simp only [step, hp]
      exact ⟨h1, h2, h3, h4⟩
    | persistOp sid t a =>
      simp only [step, hp]
      have herase := length_filter_eraseIdx
        (isCurPersist s.refs.currentSessionIdRef) s.pending i _ hp
      have herase2 := length_filter_eraseIdx
        (isCurPersist (some s.props.sessionId)) s.pending i _ hp
      have hsub : ∀ op ∈ s.pending.eraseIdx i, capturedOf op ∈ used :=
        fun op hop => h2 op ((List.eraseIdx_sublist s.pending i).subset hop)
      have hshape := applyPersist_shape { s with pending := s.pending.eraseIdx i } sid t a o
      by_cases hcur : some sid = s.refs.currentSessionIdRef
      · -- the completed call belongs to the current binding: `isUpdating` was
        -- true (the count was one), and both return to zero/false together
        have hcurR : some sid
            = ({ s with pending := s.pending.eraseIdx i } : Sys).refs.currentSessionIdRef :=
          hcur
        have hcnt1 : (s.pending.filter (isCurPersist s.refs.currentSessionIdRef)).length
            = if s.hs.isUpdating = true then 1 else 0 := by
          simpa [persistCountCur] using h3
        have hmem : (PendingOp.persistOp sid t a) ∈
            s.pending.filter (isCurPersist s.refs.currentSessionIdRef) :=
          List.mem_filter.mpr ⟨List.getElem?_mem hp, by simp [isCurPersist, hcur]⟩
        have hpos : 0 < (s.pending.filter (isCurPersist s.refs.currentSessionIdRef)).length :=
          List.length_pos_of_mem hmem
        have hcnt0 : ((s.pending.eraseIdx i).filter
            (isCurPersist s.refs.currentSessionIdRef)).length = 0 := by
          rw [herase]
          simp only [isCurPersist, hcur]
          split_ifs at hcnt1 with hu <;> simp_all
        refine ⟨?_, ?_, ?_, ?_⟩
        · rw [hshape.1]
          exact h1
        · rw [hshape.2.2]
          exact hsub
        · show ((applyPersist { s with pending := s.pending.eraseIdx i } sid t a o).pending.filter
              (isCurPersist (applyPersist { s with pending := s.pending.eraseIdx i }
                sid t a o).refs.currentSessionIdRef)).length = _
          rw [hshape.2.2, hshape.2.1,
            applyPersist_cur_updating { s with pending := s.pending.eraseIdx i } sid t a o hcurR]
          simpa using hcnt0
        · intro hne
          rw [hshape.1, hshape.2.1] at hne
          rw [hshape.1, hshape.2.2]
          have h40 := h4 hne
          show ((s.pending.eraseIdx i).filter
              (isCurPersist (some s.props.sessionId))).length = 0
          rw [herase2, h40]
          simp
      · have hcurR : ¬ some sid
            = ({ s with pending := s.pending.eraseIdx i } : Sys).refs.currentSessionIdRef :=
          hcur
        rw [applyPersist_stale { s with pending := s.pending.eraseIdx i } sid t a o hcurR]
        refine ⟨h1, hsub, ?_, ?_⟩
        · show ((s.pending.eraseIdx i).filter
              (isCurPersist s.refs.currentSessionIdRef)).length = _
          rw [herase]
          have hfalse : isCurPersist s.refs.currentSessionIdRef (PendingOp.persistOp sid t a)
              = false := by
            simp [isCurPersist, hcur]
          rw [hfalse]
          simpa [persistCountCur] using h3
        · intro hne
          show ((s.pending.eraseIdx i).filter
              (isCurPersist (some s.props.sessionId))).length = 0
          rw [herase2, h4 hne]
          simp

/-- Every well-formed reachable state satisfies the single-flight invariant. -/
lemma reach_jinv {used : List String} {s : Sys} (h : ReachWF used s) : Jinv used s := by
  induction h with
  | init st =>
    exact ⟨by simp [initSys], by simp [initSys], by simp [initSys, persistCountCur],
      by simp [initSys]⟩
  | bind sid t ms hfresh h ih =>
    obtain ⟨h1, h2, h3, h4⟩ := ih
    refine ⟨List.mem_cons_self _ _, fun op hop => List.mem_cons_of_mem _ (h2 op hop), ?_, ?_⟩
    · simpa [persistCountCur, step] using h3
    · intro _
      show ((step _ (.bind sid t ms)).pending.filter (isCurPersist (some sid))).length = 0
      simp only [step]
      rw [List.length_eq_zero]
      apply List.filter_eq_nil_iff.mpr
      intro op hop
      cases op with
      | fetchOp c => simp [isCurPersist]
      | persistOp c u b =>
        have hcu := h2 _ hop
        simp only [capturedOf] at hcu
        simp only [isCurPersist, decide_eq_false_iff_not, Option.some.injEq]
        intro heq
        exact hfresh (of_decide_eq_true heq ▸ hcu)
  | setMessages ms h ih =>
    obtain ⟨h1, h2, h3, h4⟩ := ih
    exact ⟨h1, h2, by simpa [persistCountCur, step] using h3,
      by simpa [step] using h4⟩
  | runEffects h ih => exact jinv_autoGen (jinv_init (jinv_reset ih))
  | manualUpdate t hcur h ih => exact jinv_manual t hcur ih
  | fetchComplete i o h ih => exact jinv_fetchC i o ih
  | persistComplete i o h ih => exact jinv_persistC i o ih

/-! ## The claims -/

/-- C1 (code bug): manual precedence is violated by an in-flight
initialization fetch.  On the concrete run `c1Trace` — bind session
`"s1"` with no provided title (a metadata fetch is issued), save
`"My Title"` manually (persistence succeeds, `manuallyEdited` becomes
true), then let the fetch that was issued before the manual save
complete with the stale remote description — the fetch completion
handler, which checks only session currency, overwrites the manually
saved title: the final title is `"Old Remote"`, not `"My Title"`,
although `manuallyEdited` is still true. -/
theorem C1_manual_title_overwritten_by_stale_fetch :
    ((exec (initSys st0) c1Prefix).hs.title = "My Title" ∧
     (exec (initSys st0) c1Prefix).hs.isManuallyEdited = true ∧
     (exec (initSys st0) c1Prefix).pending = [.fetchOp "s1"]) ∧
    ((exec (initSys st0) c1Trace).hs.title = "Old Remote" ∧
     (exec (initSys st0) c1Trace).hs.isManuallyEdited = true) := by decide

/-- C2 counterexample: rebinding away from `"A"` and back to `"A"`
does not invalidate the first instance's outstanding fetch.  On
`c2Prefix` the only outstanding call is the fetch issued during the
first `"A"` binding (it is already the whole pending list after two
events, before the bind to `"B"`); when it completes after the rebind
to `"A"`, the session-id comparison passes and it overwrites the new
binding's provided title `"tA"` with `"Evil"` — the new session's state
is mutated by a call of a previous binding, refuting the claim. -/
theorem C2_counterexample :
    ((exec (initSys st0) (c2Prefix.take 2)).pending = [.fetchOp "A"]) ∧
    ((exec (initSys st0) c2Prefix).pending = [.fetchOp "A"]) ∧
    ((exec (initSys st0) c2Prefix).refs.currentSessionIdRef = some "A") ∧
    ((exec (initSys st0) c2Prefix).hs.title = "tA") ∧
    ((exec (initSys st0) (c2Prefix ++ [.fetchComplete 0 (.success (some "Evil"))])).hs.title
      = "Evil") := by decide

/-- C2 (amended): stale results are recognised by session-id equality,
not by per-bind tokens.  A fetch or persistence completion whose
captured session id differs from the currently bound one mutates
nothing: hook state, refs, storage and props are all unchanged (only
the settled call leaves the pending list).  Rebinding back to the same
identifier, however, does not invalidate older calls (see the
counterexample). -/
theorem C2_stale_results_discarded_by_id (s : Sys) (i : Nat) (op : PendingOp)
    (hop : s.pending[i]? = some op)
    (hstale : ¬ some (capturedOf op) = s.refs.currentSessionIdRef) :
    ∀ (fo : FetchOutcome) (po : PersistOutcome),
      ((step s (.fetchComplete i fo)).hs = s.hs ∧
       (step s (.fetchComplete i fo)).refs = s.refs ∧
       (step s (.fetchComplete i fo)).storage = s.storage ∧
       (step s (.fetchComplete i fo)).props = s.props) ∧
      ((step s (.persistComplete i po)).hs = s.hs ∧
       (step s (.persistComplete i po)).refs = s.refs ∧
       (step s (.persistComplete i po)).storage = s.storage ∧
       (step s (.persistComplete i po)).props = s.props) := by
  intro fo po
  cases op with
  | fetchOp sid =>
    simp only [capturedOf] at hstale
    refine ⟨?_, ?_⟩
    · cases fo <;> simp [step, hop, applyFetch, hstale]
    · simp [step, hop]
  | persistOp sid t a =>
    simp only [capturedOf] at hstale
    refine ⟨?_, ?_⟩
    · simp [step, hop]
    · cases po <;> cases a <;>
        simp [step, hop, applyPersist, applyPersistSuccess, applyPersistFinally,
          applyPersistFailure, applyAutoGenThen, applyAutoGenFinally, hstale]

/-- C2 witness: the stale-result theorem applied to a concrete state
whose one outstanding fetch captured `"X"` while the hook is bound to
`"Y"`. -/
theorem C2_witness :
    ((step sStale (.fetchComplete 0 (.success (some "Evil")))).hs = sStale.hs ∧
     (step sStale (.fetchComplete 0 (.success (some "Evil")))).storage = sStale.storage) ∧
    (step sStale (.persistComplete 0 .success)).hs = sStale.hs := by
  have h := C2_stale_results_discarded_by_id sStale 0 (.fetchOp "X") (by decide) (by decide)
    (.success (some "Evil")) .success
  exact ⟨⟨h.1.1, h.1.2.2.1⟩, h.2.1⟩

/-- C3 (code bug): the auto-generation completion has no
"manuallyEdited already true" guard — it checks only session currency —
so it can clobber a manual edit's ledger state.  On the concrete run
`c3Trace`: an auto-generation persistence call for `"A"` is issued; the
view rebinds to `"B"` and back to `"A"`; on the new `"A"` instance a
manual save of `"Real"` succeeds (while the old call is still
outstanding), leaving `manuallyEdited = true` and the ledger entry
true; then the old auto-generation call completes: its `.then` handler
passes the session-id check and resets `manuallyEdited` to false,
removes the ledger entry, and leaves the stale title `"hi"` — the
post-state the claim requires (`manuallyEdited` and ledger entry still
true) does not hold. -/
theorem C3_autogen_completion_clobbers_manual_ledger :
    ((exec (initSys st0) c3Prefix).hs.isManuallyEdited = true ∧
     (exec (initSys st0) c3Prefix).hs.title = "Real" ∧
     isSessionManuallyEdited (exec (initSys st0) c3Prefix).storage "A" = true ∧
     (exec (initSys st0) c3Prefix).pending = [.persistOp "A" "hi" true]) ∧
    ((exec (initSys st0) c3Trace).hs.isManuallyEdited = false ∧
     isSessionManuallyEdited (exec (initSys st0) c3Trace).storage "A" = false ∧
     (exec (initSys st0) c3Trace).hs.title = "hi") := by decide

/-- C4 counterexample: after a failed auto-generation persistence call
every guard of the auto-generation effect is satisfied again, so the
transition fires a second time within the same session instance — on
the concrete run `c4Trace` it fires twice (and the sixth event is the
persistence failure, visible in `error`), refuting "at most once ...
regardless of whether the persistence call succeeded or failed". -/
theorem C4_counterexample :
    fireCount (initSys st0) c4Trace = 2 ∧
    (exec (initSys st0) (c4Trace.take 6)).hs.error = some "boom" := by decide

/-- C4 (amended): the auto-generation transition fires only while the
title is empty, the state is not stabilized, not manually edited, no
existing title is known, and exactly one user-authored message exists;
a stabilized state of the bound session can never fire it again, no
event of the same binding ever un-stabilizes a stabilized state, and a
successful completion of an auto-generation (or any) persistence call
for the bound session stabilizes it — hence at most one auto-generation
can ever succeed per binding.  After a FAILED persistence call, however,
the guards are restored and it may fire again (see the
counterexample). -/
theorem C4_amended_single_autogen :
    (∀ s : Sys, autoGenReady s = true →
        s.hs.title = "" ∧ s.hs.isStabilized = false ∧ s.hs.isManuallyEdited = false ∧
        s.hs.hasExistingTitle = false ∧ s.props.messages.length = 1 ∧
        (s.props.messages.head?.map Message.role) = some "user") ∧
    (∀ s : Sys, some s.props.sessionId = s.refs.currentSessionIdRef →
        s.hs.isStabilized = true → autoGenReady (initEffect (resetEffect s)) = false) ∧
    (∀ (s : Sys) (e : Event), some s.props.sessionId = s.refs.currentSessionIdRef →
        s.hs.isStabilized = true → (step s e).hs.isStabilized = true) ∧
    (∀ (s : Sys) (i : Nat) (sid t : String) (a : Bool),
        s.pending[i]? = some (.persistOp sid t a) →
        some sid = s.refs.currentSessionIdRef →
        (step s (.persistComplete i .success)).hs.isStabilized = true) := by
  refine ⟨?_, ?_, ?_, ?_⟩
  · intro s h
    simp only [autoGenReady, Bool.and_eq_true, decide_eq_true_eq,
      Bool.not_eq_eq_eq_not, Bool.not_true] at h
    obtain ⟨⟨⟨⟨⟨⟨⟨⟨⟨⟨_, _⟩, h3⟩, h4⟩, h5⟩, h6⟩, _⟩, h8⟩, h9⟩, _⟩, _⟩ := h
    exact ⟨h4, h5, h6, h3, h8, h9⟩
  · intro s hagree hstab
    rw [resetEffect_agree hagree]
    exact autoGenReady_stab (initEffect_stab hstab)
  · intro s e hagree hstab
    cases e with
    | bind sid t ms => exact hstab
    | setMessages ms => exact hstab
    | runEffects =>
      show (autoGenEffect (initEffect (resetEffect s))).hs.isStabilized = true
      rw [resetEffect_agree hagree]
      have h1 := initEffect_stab hstab
      unfold autoGenEffect
      rw [autoGenReady_stab h1]
      simp only [Bool.false_eq_true, if_false]
      exact h1
    | manualUpdate t =>
      show (manualUpdateStep s t).hs.isStabilized = true
      unfold manualUpdateStep
      split
      · exact hstab
      · exact hstab
    | fetchComplete i o =>
      rcases hp : s.pending[i]? with _ | op
      · simp only [step, hp]
        exact hstab
      · cases op with
        | fetchOp sid =>
          cases o with
          | success desc =>
            simp only [step, hp, applyFetch]
            split_ifs <;> simp_all
          | failure =>
            simp only [step, hp, applyFetch]
            split_ifs <;> simp_all
        | persistOp sid t a =>
          simp only [step, hp]
          exact hstab
    | persistComplete i o =>
      rcases hp : s.pending[i]? with _ | op
      · simp only [step, hp]
        exact hstab
      · cases op with
        | fetchOp sid =>
          simp only [step, hp]
          exact hstab
        | persistOp sid t a =>
          cases o with
          | success =>
            simp only [step, hp, applyPersist, applyPersistSuccess, applyPersistFinally,
              applyAutoGenThen, applyAutoGenFinally]
            cases a <;> split_ifs <;> simp_all
          | failure err =>
            simp only [step, hp, applyPersist, applyPersistFailure, applyPersistFinally,
              applyAutoGenFinally]
            cases a <;> split_ifs <;> simp_all
  · intro s i sid t a hop hcur
    cases a <;>
      simp [step, hop, applyPersist, applyPersistSuccess, applyPersistFinally,
        applyAutoGenThen, applyAutoGenFinally, hcur.symm]

/-- C4 witness: the amended theorem applied to concrete states — a
ready state of the `c4Trace` run, a stabilized bound state that cannot
fire, a stabilized state preserved by an effect run, and a successful
auto-generation completion that stabilizes. -/
theorem C4_witness :
    ((exec (initSys st0) (c4Trace.take 4)).hs.title = "") ∧
    (autoGenReady (initEffect (resetEffect
        (exec (initSys st0) [.bind "B" "tB" [], .runEffects]))) = false) ∧
    ((step (exec (initSys st0) [.bind "B" "tB" [], .runEffects]) .runEffects).hs.isStabilized
      = true) ∧
    ((step sAuto (.persistComplete 0 .success)).hs.isStabilized = true) := by
  refine ⟨(C4_amended_single_autogen.1 _ (by decide)).1,
    C4_amended_single_autogen.2.1 _ (by decide) (by decide),
    C4_amended_single_autogen.2.2.1 _ .runEffects (by decide) (by decide),
    C4_amended_single_autogen.2.2.2 sAuto 0 "A" "hi" true (by decide) (by decide)⟩

/-- C5 (confirmed): single-flight persistence.  A manual update request
arriving while `isUpdating` is true is rejected and dropped — the state,
including the pending-call list, is exactly unchanged, so no second
network call is started and nothing is queued; and along every
well-formed run, the number of outstanding persistence calls captured
with the bound session id is one exactly while `isUpdating` is true
(zero otherwise), i.e. `isUpdating` spans exactly one outstanding
persistence call of the binding. -/
theorem C5_single_flight :
    (∀ (s : Sys) (t : String), s.hs.isUpdating = true → step s (.manualUpdate t) = s) ∧
    (∀ (used : List String) (s : Sys), ReachWF used s →
      persistCountCur s = if s.hs.isUpdating then 1 else 0) := by
  constructor
  · intro s t h
    show manualUpdateStep s t = s
    unfold manualUpdateStep
    rw [if_pos h]
  · intro used s h
    exact (reach_jinv h).2.2.1

/-- C5 witness: the single-flight theorem applied to a concrete busy
state and to the initial state of a well-formed run. -/
theorem C5_witness :
    step sBusy (.manualUpdate "again") = sBusy ∧ persistCountCur (initSys st0) = 0 := by
  constructor
  · exact C5_single_flight.1 sBusy "again" rfl
  · have h := C5_single_flight.2 [""] (initSys st0) (ReachWF.init st0)
    simpa using h

/-- C6 counterexample: a manual save that fails with an `Error` whose
`message` is the empty string sets `error` to the EMPTY string — the
claim's "error is set to a non-empty message" does not hold for every
failing call (the code copies `err.message` verbatim when the thrown
value is an `Error`). -/
theorem C6_counterexample :
    ((exec (initSys st0) (c6Trace.take 3)).pending = [.persistOp "s" "x" false]) ∧
    ((exec (initSys st0) c6Trace).hs.error = some "") ∧
    ((exec (initSys st0) c6Trace).hs.isUpdating = false) := by decide

/-- C6 (amended): atomicity of a failed manual save.  For every failing
persistence call completed while its session is still current: `title`,
`isStabilized`, `isManuallyEdited` and the ledger storage are unchanged,
`isUpdating` returns to false, and `error` is set to the thrown
`Error`'s message (possibly empty) or to the non-empty default
`"Failed to update session title"` when the thrown value is not an
`Error`; afterwards a retry with the same input is permitted — the next
`updateTitle` call passes the guard and issues a new persistence
call. -/
theorem C6_failed_save_contract (s : Sys) (i : Nat) (sid t retry : String) (a : Bool) (err : JsError)
    (hop : s.pending[i]? = some (.persistOp sid t a))
    (hcur : some sid = s.refs.currentSessionIdRef) :
    ((step s (.persistComplete i (.failure err))).hs.title = s.hs.title ∧
     (step s (.persistComplete i (.failure err))).hs.isStabilized = s.hs.isStabilized ∧
     (step s (.persistComplete i (.failure err))).hs.isManuallyEdited
        = s.hs.isManuallyEdited ∧
     (step s (.persistComplete i (.failure err))).storage = s.storage ∧
     (step s (.persistComplete i (.failure err))).hs.isUpdating = false ∧
     (step s (.persistComplete i (.failure err))).hs.error = some (errorMessage err)) ∧
    ((∀ m, err = .errorObj m → errorMessage err = m) ∧
     (err = .other → errorMessage err = "Failed to update session title")) ∧
    ((step (step s (.persistComplete i (.failure err))) (.manualUpdate retry)).pending
        = (step s (.persistComplete i (.failure err))).pending
            ++ [.persistOp s.props.sessionId retry false] ∧
     (step (step s (.persistComplete i (.failure err))) (.manualUpdate retry)).hs.isUpdating
        = true) := by
  have hstep :
      step s (.persistComplete i (.failure err))
        = { s with
            hs :=
              { s.hs with
                error := some (errorMessage err)
                isUpdating := false
                isAutoGenerating := (if a then false else s.hs.isAutoGenerating) }
            pending := s.pending.eraseIdx i } := by
    cases a <;>
      simp [step, hop, applyPersist, applyPersistFailure, applyPersistFinally,
        applyAutoGenFinally, hcur.symm]
  refine ⟨?_, ⟨?_, ?_⟩, ?_⟩
  · rw [hstep]
    exact ⟨rfl, rfl, rfl, rfl, rfl, rfl⟩
  · intro m hm; rw [hm]; rfl
  · intro hm; rw [hm]; rfl
  · rw [hstep]
    simp [step, manualUpdateStep]

/-- C6 witness: the failed-save theorem applied to a concrete state
with an outstanding manual save and a transport error. -/
theorem C6_witness :
    (step sManual (.persistComplete 0 (.failure (.errorObj "network down")))).hs.title
      = "Old" ∧
    (step sManual (.persistComplete 0 (.failure (.errorObj "network down")))).hs.error
      = some "network down" ∧
    (step sManual (.persistComplete 0 (.failure (.errorObj "network down")))).hs.isUpdating
      = false := by
  have h := C6_failed_save_contract sManual 0 "A" "New" "New" false
    (.errorObj "network down") (by decide) (by decide)
  exact ⟨h.1.1, h.1.2.2.2.2.2, h.1.2.2.2.2.1⟩

/-- C7 counterexample: the source splits on single space characters
(`split(' ')`), not on whitespace in general.  On `xC7` — two
25-character words separated by a tab, 51 characters in all — the
specification's whitespace word-packing yields the first word plus
`"..."`, while the code sees one 51-character "word", packs nothing and
falls back to the first 47 characters plus `"..."`. -/
theorem C7_counterexample : generateTitleFromMessage xC7 ≠ deriveSpec xC7 := by decide

/-- C7 (amended): the derivation algorithm as claimed, with
"whitespace-delimited" corrected to "delimited by single space
characters" (JavaScript `split(' ')`, consecutive spaces yielding empty
segments that are packed back): trim; empty input gives the empty
string; a trimmed input of length at most 50 is returned as-is;
otherwise space-delimited words are packed greedily while
`candidate + " " + nextWord` stays within 50 characters, `"..."` is
appended when at least one word fit, and the first 47 characters plus
`"..."` are used when none fit.  `generateTitleFromMessage` equals this
amended derivation on every input. -/
theorem C7_amended_derivation (x : String) : generateTitleFromMessage x = deriveAmended x := by
  unfold generateTitleFromMessage deriveAmended
  by_cases h0 : x = "" ∨ jsTrim x = ""
  · rw [if_pos h0]
    have ht : jsTrim x = "" := by
      rcases h0 with h | h
      · rw [h]; rfl
      · exact h
    dsimp only
    rw [if_pos ht]
  · rw [if_neg h0]
    have ht : ¬ jsTrim x = "" := fun h => h0 (Or.inr h)
    dsimp only
    rw [if_neg ht]
    by_cases hlen : (jsTrim x).length ≤ 50
    · rw [if_pos hlen, if_pos hlen]
    · rw [if_neg hlen, if_neg hlen]
      by_cases hnil : packWords (splitChar ' ' (jsTrim x).data) [] = []
      · rw [if_pos hnil, if_pos hnil]
      · rw [if_neg hnil, if_neg hnil]
        have hp := packWords_length_le (splitChar ' ' (jsTrim x).data) [] (by simp)
        rw [if_pos (by omega)]

/-- C8 (confirmed): for every input string, the derived title's length
is at least 0 and at most 53 (50 characters of packed words plus
`"..."`; the short branch gives at most 50, the hard-truncation branch
exactly 50). -/
theorem C8_length_bound (x : String) :
    0 ≤ (generateTitleFromMessage x).length ∧ (generateTitleFromMessage x).length ≤ 53 := by
  refine ⟨Nat.zero_le _, ?_⟩
  unfold generateTitleFromMessage
  split
  · simp
  · dsimp only
    split
    · omega
    · rename_i hlong
      split
      · rw [String.length_append]
        have : (String.mk ((jsTrim x).data.take 47)).length ≤ 47 := by
          show ((jsTrim x).data.take 47).length ≤ 47
          simp [List.length_take]
        simp only [show ("..." : String).length = 3 from rfl]
        omega
      · split
        · rw [String.length_append]
          have hp := packWords_length_le (splitChar ' ' (jsTrim x).data) [] (by simp)
          have : (String.mk (packWords (splitChar ' ' (jsTrim x).data) [])).length ≤ 50 := hp
          simp only [show ("..." : String).length = 3 from rfl]
          omega
        · rename_i h1 h2
          have hp := packWords_length_le (splitChar ' ' (jsTrim x).data) [] (by simp)
          show (packWords (splitChar ' ' (jsTrim x).data) []).length ≤ 53
          omega

/-- C9 (confirmed): ledger failure degradation.  The ledger read
returns false (and cannot raise — it is total) when the underlying
storage read throws, and also when the key is absent; the ledger write
swallows an underlying storage write failure, leaving the storage
unchanged and surfacing nothing to the caller (it is total and returns
a plain storage). -/
theorem C9_ledger_degradation :
    (∀ (st : Storage) (sid : String), st.readFails = true →
        isSessionManuallyEdited st sid = false) ∧
    (∀ (st : Storage) (sid : String),
        st.entries.find? (fun p => p.1 = getManualEditKey sid) = none →
        isSessionManuallyEdited st sid = false) ∧
    (∀ (st : Storage) (sid : String) (b : Bool), st.writeFails = true →
        setSessionManuallyEdited st sid b = st) := by
  refine ⟨?_, ?_, ?_⟩
  · intro st sid h
    simp [isSessionManuallyEdited, localGetItem, h]
  · intro st sid h
    unfold isSessionManuallyEdited localGetItem
    by_cases hr : st.readFails
    · simp [hr]
    · simp [hr, h]
  · intro st sid b h
    unfold setSessionManuallyEdited localSetItem localRemoveItem
    cases b <;> simp [h]

/-- C9 witness: the ledger-degradation theorem applied to a failing
reader, an empty storage, and a failing writer. -/
theorem C9_witness :
    isSessionManuallyEdited { entries := [], readFails := true, writeFails := false } "s"
      = false ∧
    isSessionManuallyEdited st0 "s" = false ∧
    setSessionManuallyEdited { entries := [], readFails := false, writeFails := true } "s" true
      = { entries := [], readFails := false, writeFails := true } := by
  exact ⟨C9_ledger_degradation.1 _ "s" rfl,
    C9_ledger_degradation.2.1 st0 "s" (by decide),
    C9_ledger_degradation.2.2 _ "s" true rfl⟩

/-- C10 (confirmed): the successful auto-generation path transiently
marks the session as manually edited.  Because it reuses
`updateTitle`, the completion of a successful auto-generation
persistence call is exactly the manual success path followed by the
auto-generation `.then`/`.finally` chain; the intermediate state after
the manual part has `isManuallyEdited = true` and the ledger entry
`"true"`, and only the chain afterwards resets `isManuallyEdited` to
false and clears the ledger entry by removing the key — so the final
state has both false and the ledger read reports not-manually-edited
again. -/
theorem C10_transient_manual_mark (s : Sys) (i : Nat) (sid t : String)
    (hop : s.pending[i]? = some (.persistOp sid t true))
    (hcur : some sid = s.refs.currentSessionIdRef)
    (hw : s.storage.writeFails = false) :
    (step s (.persistComplete i .success)
      = applyAutoGenFinally
          (applyAutoGenThen
            (applyPersistFinally
              (applyPersistSuccess { s with pending := s.pending.eraseIdx i } sid t) sid)
            sid)
          sid) ∧
    ((applyPersistFinally
        (applyPersistSuccess { s with pending := s.pending.eraseIdx i } sid t)
        sid).hs.isManuallyEdited = true) ∧
    ((applyPersistFinally
        (applyPersistSuccess { s with pending := s.pending.eraseIdx i } sid t)
        sid).storage.entries.find? (fun p => p.1 = getManualEditKey sid)
      = some (getManualEditKey sid, "true")) ∧
    ((step s (.persistComplete i .success)).hs.isManuallyEdited = false) ∧
    ((step s (.persistComplete i .success)).storage.entries.find?
        (fun p => p.1 = getManualEditKey sid) = none) ∧
    (isSessionManuallyEdited (step s (.persistComplete i .success)).storage sid = false) := by
  have hmid :
      applyPersistFinally
          (applyPersistSuccess { s with pending := s.pending.eraseIdx i } sid t) sid
        = { s with
            hs :=
              { s.hs with
                title := t
                hasExistingTitle := true
                isStabilized := true
                isManuallyEdited := true
                isUpdating := false }
            storage := setSessionManuallyEdited s.storage sid true
            pending := s.pending.eraseIdx i } := by
    simp [applyPersistSuccess, applyPersistFinally, hcur.symm]
  have hstor : setSessionManuallyEdited s.storage sid true
      = { s.storage with
          entries := (getManualEditKey sid, "true")
            :: s.storage.entries.filter (fun p => ¬ p.1 = getManualEditKey sid) } := by
    simp [setSessionManuallyEdited, localSetItem, hw]
  have hfin :
      step s (.persistComplete i .success)
        = { s with
            hs :=
              { title := t
                isUpdating := false
                isAutoGenerating := false
                error := s.hs.error
                hasExistingTitle := true
                isStabilized := true
                isManuallyEdited := false }
            storage := setSessionManuallyEdited
              (setSessionManuallyEdited s.storage sid true) sid false
            pending := s.pending.eraseIdx i } := by
    simp [step, hop, applyPersist, applyPersistSuccess, applyPersistFinally,
      applyAutoGenThen, applyAutoGenFinally, hcur.symm]
  have hstor2 :
      setSessionManuallyEdited (setSessionManuallyEdited s.storage sid true) sid false
        = { s.storage with
            entries := ((getManualEditKey sid, "true")
                :: s.storage.entries.filter (fun p => ¬ p.1 = getManualEditKey sid)).filter
              (fun p => ¬ p.1 = getManualEditKey sid) } := by
    rw [hstor]
    simp [setSessionManuallyEdited, localRemoveItem, hw]
  refine ⟨?_, ?_, ?_, ?_, ?_, ?_⟩
  · simp [step, hop, applyPersist]
  · rw [hmid]
  · rw [hmid, hstor]
    simp [List.find?_cons]
  · rw [hfin]
  · rw [hfin, hstor2]
    exact find?_filter_ne_none _ _
  · rw [hfin, hstor2]
    unfold isSessionManuallyEdited localGetItem
    by_cases hr : s.storage.readFails <;>
      simp [hr, find?_filter_ne_none, find?_const_false]

/-- C10 witness: the transient-mark theorem applied to a concrete
state with an outstanding auto-generation persistence call. -/
theorem C10_witness :
    ((applyPersistFinally (applyPersistSuccess
        { sAuto with pending := sAuto.pending.eraseIdx 0 } "A" "hi") "A").hs.isManuallyEdited
      = true) ∧
    ((step sAuto (.persistComplete 0 .success)).hs.isManuallyEdited = false) ∧
    (isSessionManuallyEdited (step sAuto (.persistComplete 0 .success)).storage "A"
      = false) := by
  have h := C10_transient_manual_mark sAuto 0 "A" "hi" (by decide) (by decide) (by decide)
  exact ⟨h.2.1, h.2.2.2.1, h.2.2.2.2.2⟩

end SessionTitleSpec
